import Mathlib

/-!
Shallow embedding of the matchlance-backend real-time conversation core:
the chat data model (`src/models/chat.ts`), the socket handlers
(`sendMessageHandler`, `joinConversationHandler`, `markAsReadHandler`),
the HTTP chat controller (`src/controllers/chat.ts`), the conversation
cache invalidation helpers (`src/utils/conversationCache.ts`), the online
presence registry (`src/utils/socket/onlineUsers.ts`), the zod payload
validation (`src/utils/socket/validation.ts`) and the conversation
creation block of `acceptJobProposal` (`src/controllers/proposal.ts`).

Times are modelled as naturals, ids as strings; the MongoDB collections
are modelled as lists of documents, redis hashes as association lists.
-/

namespace Matchlance

abbrev UserId := String
abbrev ConvId := String
abbrev MsgId := String
abbrev SocketId := String
abbrev Time := Nat

/-- The `status` enum of the message schema (`src/models/chat.ts`). -/
inductive MessageStatus
  | sent
  | delivered
  | read
deriving DecidableEq, Repr

/-- A document of the `Message` collection (`messageSchema` in
`src/models/chat.ts`): `messageType` is kept as a raw string because the
mongoose enum (`["text","file","image"]`) and the zod enum
(`["text","image","file","audio","video"]`) disagree. -/
structure MessageDoc where
  id : MsgId
  conversationId : ConvId
  senderId : UserId
  content : String
  messageType : String
  fileUrl : Option String
  fileName : Option String
  isRead : Bool
  readAt : Option Time
  status : MessageStatus
  deliveredAt : Option Time
  createdAt : Time
deriving DecidableEq, Repr

/-- The `lastMessage` subdocument of a conversation. -/
structure LastMessage where
  content : String
  senderId : UserId
  timestamp : Time
deriving DecidableEq, Repr

/-- A document of the `Conversation` collection (`conversationSchema` in
`src/models/chat.ts`); `unreadCount` is the mongoose `Map`, modelled as an
association list. -/
structure ConversationDoc where
  id : ConvId
  participants : List UserId
  jobId : Option String
  proposalId : Option String
  lastMessage : Option LastMessage
  unreadCount : List (UserId × Nat)
deriving DecidableEq, Repr

/-- Models `conversation.unreadCount.get(k) || 0` — lookup defaulting to 0. -/
def unreadGet (m : List (UserId × Nat)) (k : UserId) : Nat :=
  match m.find? (fun p => p.1 = k) with
  | some p => p.2
  | none => 0

/-- Models `conversation.unreadCount.set(k, v)` — map update (insert or replace). -/
def unreadSet (m : List (UserId × Nat)) (k : UserId) (v : Nat) : List (UserId × Nat) :=
  if m.any (fun p => p.1 = k) then
    m.map (fun p => if p.1 = k then (k, v) else p)
  else
    m ++ [(k, v)]

/-- The mongoose enum for `messageType` in `messageSchema`
(`src/models/chat.ts` lines 52-56). -/
def modelMessageTypes : List String := ["text", "file", "image"]

/-- The zod enum for `messageType` in `sendMessageSchema`
(`src/utils/socket/validation.ts` lines 16-21). -/
def zodMessageTypes : List String := ["text", "image", "file", "audio", "video"]

/-- Models `mongoose.Types.ObjectId.isValid`: a 24-character hex string, or any
12-character string. -/
def objectIdIsValid (s : String) : Bool :=
  (s.length = 24 && s.data.all (fun c => c.isDigit || ("abcdefABCDEF".data.contains c)))
    || s.length = 12

/-- The `sendMessageSchema.safeParse` success condition
(`src/utils/socket/validation.ts`): conversationId a non-empty valid
ObjectId, content between 1 and 5000 characters, messageType (when
present) a member of the zod enum, fileName (when present) at most 255
characters. -/
def sendMessageSchemaOk (conversationId content : String)
    (messageType : Option String) (fileName : Option String) : Bool :=
  (conversationId.length ≥ 1) && objectIdIsValid conversationId
    && (content.length ≥ 1) && (content.length ≤ 5000)
    && (match messageType with
        | some t => zodMessageTypes.contains t
        | none => true)
    && (match fileName with
        | some n => n.length ≤ 255
        | none => true)

/-- State of the two redis caches touched by the chat mutations: the set
of conversation-cache keys (`conversation:<id>`) and the set of per-user
conversation-list keys (`conversations:user:<id>`), modelled by the plain
ids they are keyed by. -/
structure CacheState where
  convKeys : List ConvId
  userConvKeys : List UserId
deriving DecidableEq, Repr

/-- Models `invalidateConversationCache` (`src/utils/conversationCache.ts`):
deletes the cache entry for the conversation id. -/
def invalidateConversationCache (c : CacheState) (cid : ConvId) : CacheState :=
  { c with convKeys := c.convKeys.filter (fun k => k ≠ cid) }

/-- Models `invalidateUserConversationsCache` (`src/utils/conversationCache.ts`):
deletes the conversation-list cache entry for the user id. -/
def invalidateUserConversationsCache (c : CacheState) (uid : UserId) : CacheState :=
  { c with userConvKeys := c.userConvKeys.filter (fun k => k ≠ uid) }

/-- Whole-world state seen by the chat handlers: the two MongoDB
collections, the redis presence hash (`online_users`), the socket.io
room-membership table of the sending process, and the redis caches. -/
structure ChatState where
  conversations : List ConversationDoc
  messages : List MessageDoc
  onlineUsers : List (UserId × SocketId)
  rooms : List (String × List SocketId)
  cache : CacheState
deriving DecidableEq, Repr

/-- Models `getOnlineUserSocketId` (`src/utils/socket/onlineUsers.ts`): redis
`hget` on the `online_users` hash. -/
def getOnlineUserSocketId (st : ChatState) (uid : UserId) : Option SocketId :=
  (st.onlineUsers.find? (fun p => p.1 = uid)).map (fun p => p.2)

/-- Models `io.sockets.adapter.rooms.get(name)` — the adapter stores only rooms
with at least one member, so the lookup returns `none` for unknown rooms. -/
def roomsGet (st : ChatState) (name : String) : Option (List SocketId) :=
  (st.rooms.find? (fun p => p.1 = name)).map (fun p => p.2)

/-- The broadcast room name for a conversation: `conversation:<id>`. -/
def conversationRoom (cid : ConvId) : String := "conversation:" ++ cid

/-- Models `Conversation.findById` and the cache read path: first document whose
id matches. -/
def findConv (convs : List ConversationDoc) (cid : ConvId) : Option ConversationDoc :=
  convs.find? (fun c => c.id = cid)

/-- Models `Conversation.findOne({_id, participants: userId})` — the transactional
re-fetch in `handleSendMessage`. -/
def findConvWithParticipant (convs : List ConversationDoc) (cid : ConvId)
    (uid : UserId) : Option ConversationDoc :=
  convs.find? (fun c => c.id = cid && c.participants.contains uid)

/-- Models `Message.findById`. -/
def findMsg (msgs : List MessageDoc) (mid : MsgId) : Option MessageDoc :=
  msgs.find? (fun m => m.id = mid)

/-- Replace the conversation with the given id (mongoose `save` of a
fetched document). -/
def saveConv (convs : List ConversationDoc) (c : ConversationDoc) : List ConversationDoc :=
  convs.map (fun d => if d.id = c.id then c else d)

/-- Where a socket.io emission goes. -/
inductive EmitTarget
  | toSender
  | toRoom (name : String)
  | toUser (uid : UserId)
deriving DecidableEq, Repr

/-- Outbound events of the chat handlers. -/
inductive SocketEvent
  | errorEv (message : String)
  | newMessage (messageId : MsgId) (conversationId : ConvId)
  | messageDelivered (messageId : MsgId) (conversationId : ConvId) (deliveredAt : Option Time)
  | conversationUpdate (conversationId : ConvId) (lastMessage : Option LastMessage) (unreadCount : Nat)
  | messagesRead (conversationId : ConvId) (readBy : UserId) (messageIds : List MsgId) (readAt : Time)
  | messagesDelivered (conversationId : ConvId) (count : Nat)
  | userJoined (userId : UserId) (conversationId : ConvId)
deriving DecidableEq, Repr

/-- Result of running one handler: the new world state plus the emitted
events in order. -/
structure HandlerResult where
  state : ChatState
  events : List (EmitTarget × SocketEvent)
deriving DecidableEq, Repr

/-- The `trim: true` transform of the mongoose `content` field, modelled
over the character list (whitespace stripped from both ends). -/
def strTrim (s : String) : String :=
  String.mk (((s.data.dropWhile Char.isWhitespace).reverse.dropWhile
    Char.isWhitespace).reverse)

/-- Mongoose document validation for `Message.create` (`messageSchema`):
`content` is trimmed, required (non-empty) and at most 5000 characters;
`messageType` must be in the schema enum `["text","file","image"]`. -/
def mongooseMessageValidate (content mtype : String) : Bool :=
  (strTrim content ≠ "") && ((strTrim content).length ≤ 5000)
    && modelMessageTypes.contains mtype

/-- Models `handleSendMessage` (`sendMessageHandler.ts`) after rate limiting and
zod validation: cache pre-check, participant check (both failures emit the
same "Conversation not found"), online/room pre-check for the initial
status, then the transaction (re-fetch with participant filter, message
creation, `lastMessage` refresh, unread increment), cache invalidation and
the outbound events. A mongoose validation failure inside `Message.create`
aborts the transaction and is reported as "failed to send message". -/
def handleSendMessageCore (st : ChatState) (uid : UserId)
    (conversationId content : String) (messageType : Option String)
    (fileUrl fileName : Option String) (newId : MsgId) (now : Time) : HandlerResult :=
  match findConv st.conversations conversationId with
  | none => ⟨st, [(.toSender, .errorEv "Conversation not found")]⟩
  | some pre =>
    if ¬ pre.participants.contains uid then
      ⟨st, [(.toSender, .errorEv "Conversation not found")]⟩
    else
      let otherUserId : Option UserId := pre.participants.find? (fun p => p ≠ uid)
      -- "check if recipent is online bfore transaction":
      -- recipientSocketId && io.sockets.adapter.rooms.get(`conversation:${id}`)
      let shouldMarkAsDelivered : Bool :=
        match otherUserId with
        | some o =>
            (getOnlineUserSocketId st o).isSome
              && (roomsGet st (conversationRoom conversationId)).isSome
        | none => false
      match findConvWithParticipant st.conversations conversationId uid with
      | none => ⟨st, [(.toSender, .errorEv "Conversation not found")]⟩
      | some conv =>
        let mtype := messageType.getD "text"
        if ¬ mongooseMessageValidate content mtype then
          ⟨st, [(.toSender, .errorEv "failed to send message")]⟩
        else
          let msg : MessageDoc :=
            { id := newId
              conversationId := conversationId
              senderId := uid
              content := strTrim content
              messageType := mtype
              fileUrl := fileUrl
              fileName := fileName
              isRead := false
              readAt := none
              status := if shouldMarkAsDelivered then .delivered else .sent
              deliveredAt := if shouldMarkAsDelivered then some now else none
              createdAt := now }
          let conv' : ConversationDoc :=
            { conv with
              lastMessage := some ⟨content, uid, now⟩
              unreadCount :=
                match otherUserId with
                | some o => unreadSet conv.unreadCount o (unreadGet conv.unreadCount o + 1)
                | none => conv.unreadCount }
          let cache' :=
            conv.participants.foldl invalidateUserConversationsCache
              (invalidateConversationCache st.cache conversationId)
          let st' : ChatState :=
            { st with
              conversations := saveConv st.conversations conv'
              messages := st.messages ++ [msg]
              cache := cache' }
          let deliveredEvents :=
            if shouldMarkAsDelivered then
              [(EmitTarget.toSender, SocketEvent.messageDelivered newId conversationId msg.deliveredAt)]
            else []
          let updateEvents :=
            match otherUserId with
            | some o =>
                [(EmitTarget.toUser o,
                  SocketEvent.conversationUpdate conversationId conv'.lastMessage
                    (unreadGet conv'.unreadCount o))]
            | none => []
          ⟨st',
            (EmitTarget.toRoom (conversationRoom conversationId),
              SocketEvent.newMessage newId conversationId) :: deliveredEvents ++ updateEvents⟩

/-- Models `handleSendMessage` including the zod `sendMessageSchema.safeParse`
step that precedes the core logic. -/
def handleSendMessage (st : ChatState) (uid : UserId)
    (conversationId content : String) (messageType : Option String)
    (fileUrl fileName : Option String) (newId : MsgId) (now : Time) : HandlerResult :=
  if ¬ sendMessageSchemaOk conversationId content messageType fileName then
    ⟨st, [(.toSender, .errorEv "Validation failed")]⟩
  else
    handleSendMessageCore st uid conversationId content messageType fileUrl fileName newId now

/-- Models `socket.join(room)`: the socket.io adapter adds the socket to the
room's member set, creating the room when absent. -/
def roomJoin (rooms : List (String × List SocketId)) (name : String)
    (sid : SocketId) : List (String × List SocketId) :=
  if rooms.any (fun p => p.1 = name) then
    rooms.map (fun p =>
      if p.1 = name then (name, if p.2.contains sid then p.2 else p.2 ++ [sid]) else p)
  else
    rooms ++ [(name, [sid])]

/-- The bulk-delivery filter of `handleJoinConversation`:
`{conversationId, senderId: {$ne: userId}, status: "sent"}`. -/
def joinDeliveryMatches (cid : ConvId) (uid : UserId) (m : MessageDoc) : Bool :=
  m.conversationId = cid && m.senderId ≠ uid && m.status = .sent

/-- Models `handleJoinConversation` (`joinConversationHandler.ts`) after rate
limiting and zod validation: participancy check via the cached
conversation (failures emit "Access denied to this conversation"), room
join, `user_joined` broadcast, then the transaction advancing every
`sent` message from the other participant to `delivered`, the
`messages_delivered` notification when any row changed, and finally
`invalidateConversationCache` (and only that cache). -/
def handleJoinConversation (st : ChatState) (uid : UserId) (sid : SocketId)
    (conversationId : ConvId) (now : Time) : HandlerResult :=
  match findConv st.conversations conversationId with
  | none => ⟨st, [(.toSender, .errorEv "Access denied to this conversation")]⟩
  | some conversation =>
    if ¬ conversation.participants.contains uid then
      ⟨st, [(.toSender, .errorEv "Access denied to this conversation")]⟩
    else
      let rooms' := roomJoin st.rooms (conversationRoom conversationId) sid
      let modifiedCount := (st.messages.filter (joinDeliveryMatches conversationId uid)).length
      let messages' := st.messages.map (fun m =>
        if joinDeliveryMatches conversationId uid m then
          { m with status := .delivered, deliveredAt := some now }
        else m)
      let deliveredEvents :=
        if modifiedCount > 0 then
          match conversation.participants.find? (fun p => p ≠ uid) with
          | some o => [(EmitTarget.toUser o, SocketEvent.messagesDelivered conversationId modifiedCount)]
          | none => []
        else []
      let st' : ChatState :=
        { st with
          rooms := rooms'
          messages := messages'
          cache := invalidateConversationCache st.cache conversationId }
      ⟨st',
        (EmitTarget.toRoom (conversationRoom conversationId),
          SocketEvent.userJoined uid conversationId) :: deliveredEvents⟩

/-- The `updateMany` filter of `handleMarkAsRead`:
`{conversationId, senderId: {$ne: userId}, isRead: false}` plus, when a
cursor timestamp is present, `createdAt: {$lte: cursor}`. -/
def markReadMatches (cid : ConvId) (uid : UserId) (cursor : Option Time)
    (m : MessageDoc) : Bool :=
  m.conversationId = cid && m.senderId ≠ uid && m.isRead = false
    && (match cursor with
        | none => true
        | some ts => m.createdAt ≤ ts)

/-- Models `handleMarkAsRead` (`markAsReadHandler.ts`) after rate limiting and
zod validation: participancy check via the cached conversation (failures
emit "Conversation not found"; the live `findById` re-read is modelled by
the same store lookup), optional cursor resolution via `Message.findById`
(a missing cursor message silently drops the restriction), the
transaction flipping the matching messages to read and resetting the
caller's unread counter to 0, cache invalidation for all participants,
and the `messages_read` notification when any row changed. -/
def handleMarkAsRead (st : ChatState) (uid : UserId) (conversationId : ConvId)
    (messageId : Option MsgId) (now : Time) : HandlerResult :=
  match findConv st.conversations conversationId with
  | none => ⟨st, [(.toSender, .errorEv "Conversation not found")]⟩
  | some conversation =>
    if ¬ conversation.participants.contains uid then
      ⟨st, [(.toSender, .errorEv "Conversation not found")]⟩
    else
      let cursor : Option Time :=
        match messageId with
        | none => none
        | some mid =>
          match findMsg st.messages mid with
          | some target => some target.createdAt
          | none => none
      let q := markReadMatches conversationId uid cursor
      let messagesToUpdate := (st.messages.filter q).map (fun m => m.id)
      let modifiedCount := (st.messages.filter q).length
      let messages' := st.messages.map (fun m =>
        if q m then { m with isRead := true, readAt := some now, status := .read } else m)
      let conv' : ConversationDoc :=
        { conversation with unreadCount := unreadSet conversation.unreadCount uid 0 }
      let cache' :=
        conversation.participants.foldl invalidateUserConversationsCache
          (invalidateConversationCache st.cache conversationId)
      let st' : ChatState :=
        { st with
          messages := messages'
          conversations := saveConv st.conversations conv'
          cache := cache' }
      let readEvents :=
        match conversation.participants.find? (fun p => p ≠ uid) with
        | some o =>
            if modifiedCount > 0 then
              [(EmitTarget.toUser o, SocketEvent.messagesRead conversationId uid messagesToUpdate now)]
            else []
        | none => []
      ⟨st', readEvents⟩

/-- The bulk read-marking `updateMany` of the HTTP `getChats` controller
(`src/controllers/chat.ts` lines 114-124): it sets `isRead` and `readAt`
on every unread message of the conversation not authored by the caller —
and does not touch `status`. -/
def getChatsMarkMessages (msgs : List MessageDoc) (uid : UserId) (cid : ConvId)
    (now : Time) : List MessageDoc :=
  msgs.map (fun m =>
    if m.conversationId = cid && m.senderId ≠ uid && m.isRead = false then
      { m with isRead := true, readAt := some now }
    else m)

/-- Failure modes of `Conversation.create`: the `pre("validate")` hook
throwing, or the unique partial index on `proposalId` raising a MongoDB
duplicate-key error (code 11000). -/
inductive CreateConvError
  | validation (msg : String)
  | duplicateKey (code : Nat)
deriving DecidableEq, Repr

/-- The `conversationSchema.pre("validate")` hook (`src/models/chat.ts`
lines 139-144): throws unless there are exactly 2 participants. -/
def conversationValidate (c : ConversationDoc) : Except String Unit :=
  if c.participants.length ≠ 2 then
    .error "Conversation must have exactly 2 participants"
  else
    .ok ()

/-- Models `Conversation.create` against a store: runs the validate hook, then
the unique partial index `{proposalId: 1}` (only for documents where
`proposalId` exists) which rejects a second conversation for the same
proposal with error code 11000; on success the document is inserted. -/
def conversationCreate (store : List ConversationDoc) (c : ConversationDoc) :
    Except CreateConvError (List ConversationDoc × ConversationDoc) :=
  match conversationValidate c with
  | .error m => .error (.validation m)
  | .ok () =>
    if c.proposalId.isSome && store.any (fun d => d.proposalId = c.proposalId) then
      .error (.duplicateKey 11000)
    else
      .ok (store ++ [c], c)

/-- Models `Conversation.findOne({proposalId})`. -/
def findConvByProposal (store : List ConversationDoc) (pid : String) :
    Option ConversationDoc :=
  store.find? (fun c => c.proposalId = some pid)

/-- Outcome of the conversation-creation block of `acceptJobProposal`. -/
inductive AcceptConvOutcome
  | ok (store : List ConversationDoc) (conversation : Option ConversationDoc)
  | httpError (status : Nat) (message : String)
deriving DecidableEq, Repr

/-- The conversation-creation block of `acceptJobProposal`
(`src/controllers/proposal.ts`): `findOne({proposalId})`, create when
absent, and on a duplicate-key (11000) race re-read and return the
existing conversation; any other creation error becomes HTTP 400 "chat
room could not be created". The race is modelled by letting `findOne` see
the earlier snapshot `preStore` while `create` runs against the current
store `postStore`. -/
def acceptCreateConversation (preStore postStore : List ConversationDoc)
    (userId freelancerId : UserId) (jobId proposalId : String)
    (newId : ConvId) : AcceptConvOutcome :=
  match findConvByProposal preStore proposalId with
  | some c => .ok postStore (some c)
  | none =>
    match conversationCreate postStore
        { id := newId
          participants := [userId, freelancerId]
          jobId := some jobId
          proposalId := some proposalId
          lastMessage := none
          unreadCount := [(userId, 0), (freelancerId, 0)] } with
    | .ok (store', c) => .ok store' (some c)
    | .error (.duplicateKey _) => .ok postStore (findConvByProposal postStore proposalId)
    | .error (.validation _) => .httpError 400 "chat room could not be created"

/-- The message-affecting operations of the pipeline, as in the claim
"send, joinConversation bulk-delivery, markAsRead". -/
inductive ChatOp
  | sendOp (uid : UserId) (conversationId content : String)
      (messageType : Option String) (fileUrl fileName : Option String)
      (newId : MsgId) (now : Time)
  | joinOp (uid : UserId) (sid : SocketId) (conversationId : ConvId) (now : Time)
  | markReadOp (uid : UserId) (conversationId : ConvId)
      (messageId : Option MsgId) (now : Time)
deriving Repr

/-- State reached after running one operation through its handler. -/
def applyOp (st : ChatState) : ChatOp → ChatState
  | .sendOp uid cid content mt fu fn newId now =>
      (handleSendMessage st uid cid content mt fu fn newId now).state
  | .joinOp uid sid cid now => (handleJoinConversation st uid sid cid now).state
  | .markReadOp uid cid mid now => (handleMarkAsRead st uid cid mid now).state

/-- State reached after a sequence of operations. -/
def applyOps (st : ChatState) (ops : List ChatOp) : ChatState :=
  ops.foldl applyOp st

/-- Position of a status in the `sent → delivered → read` progression. -/
def statusRank : MessageStatus → Nat
  | .sent => 0
  | .delivered => 1
  | .read => 2

/-- The redundant-field consistency invariant stated by the spec:
`isRead = true` with `readAt` set exactly when `status = read`, and a set
`deliveredAt` only on a `delivered` or `read` message. -/
def statusConsistent (m : MessageDoc) : Prop :=
  ((m.isRead = true ∧ m.readAt.isSome = true) ↔ m.status = .read)
    ∧ (m.deliveredAt.isSome = true → m.status = .delivered ∨ m.status = .read)

instance (m : MessageDoc) : Decidable (statusConsistent m) := by
  unfold statusConsistent; infer_instance

/-- Modelled from the spec: the delivery pre-check as the spec words it —
the recipient is globally online (presence entry) *and* the recipient's
own connection has joined the conversation's broadcast room on the
sending process. This is the claim-side check, to be compared with the
room-existence check the code actually performs. -/
def specDeliveredCheck (st : ChatState) (cid : ConvId) (recipient : UserId) : Bool :=
  match getOnlineUserSocketId st recipient with
  | some sid =>
    match roomsGet st (conversationRoom cid) with
    | some members => members.contains sid
    | none => false
  | none => false

/-! ### Helper lemmas -/

theorem statusRank_le_two (s : MessageStatus) : statusRank s ≤ 2 := by
  cases s <;> simp [statusRank]

theorem joinDeliveryMatches_status {cid : ConvId} {uid : UserId} {m : MessageDoc}
    (h : joinDeliveryMatches cid uid m = true) : m.status = .sent := by
  simp only [joinDeliveryMatches, Bool.and_eq_true, decide_eq_true_eq] at h
  exact h.2

theorem findConvWithParticipant_eq {convs : List ConversationDoc} {cid : ConvId}
    {uid : UserId} {c : ConversationDoc} (h : findConv convs cid = some c)
    (hp : c.participants.contains uid = true) :
    findConvWithParticipant convs cid uid = some c := by
  unfold findConv at h
  unfold findConvWithParticipant
  induction convs with
  | nil => simp at h
  | cons d t ih =>
    by_cases hd : d.id = cid
    · rw [List.find?_cons_of_pos _ (by simpa using hd)] at h
      cases h
      rw [List.find?_cons_of_pos _
        (by simp [hd]; exact List.mem_of_elem_eq_true hp)]
    · rw [List.find?_cons_of_neg _ (by simpa using hd)] at h
      rw [List.find?_cons_of_neg _ (by simp [hd])]
      exact ih h

theorem findConv_saveConv {convs : List ConversationDoc} {cid : ConvId}
    {c c' : ConversationDoc} (h : findConv convs cid = some c)
    (hid : c'.id = c.id) :
    findConv (saveConv convs c') cid = some c' := by
  have hcid : c.id = cid := by
    have := List.find?_some h
    simpa using this
  unfold findConv at h
  unfold findConv saveConv
  induction convs with
  | nil => simp at h
  | cons d t ih =>
    by_cases hd : d.id = cid
    · rw [List.find?_cons_of_pos _ (by simpa using hd)] at h
      cases h
      simp only [List.map_cons, if_pos hid.symm]
      rw [List.find?_cons_of_pos _ (by simp [hid, hcid])]
    · rw [List.find?_cons_of_neg _ (by simpa using hd)] at h
      have hne : ¬ d.id = c'.id := by rw [hid, hcid]; exact hd
      simp only [List.map_cons, if_neg hne]
      rw [List.find?_cons_of_neg _ (by simpa using hd)]
      exact ih h

theorem unreadGet_unreadSet_self (m : List (UserId × Nat)) (k : UserId) (v : Nat) :
    unreadGet (unreadSet m k v) k = v := by
  unfold unreadSet
  by_cases hAny : m.any (fun p => p.1 = k) = true
  · simp only [hAny, if_true]
    induction m with
    | nil => simp at hAny
    | cons h t ih =>
      by_cases hk : h.1 = k
      · simp [unreadGet, List.find?_cons, hk]
      · simp only [List.any_cons] at hAny
        simp only [hk, decide_eq_true_eq, false_or] at hAny
        simpa [unreadGet, List.find?_cons, hk] using ih hAny
  · simp only [hAny, if_false]
    have hnone : (m.find? (fun p => decide (p.1 = k))) = none := by
      rw [List.find?_eq_none]
      intro p hp
      simp only [List.any_eq_true, not_exists, not_and] at hAny
      simp [hAny p hp]
    simp [unreadGet, List.find?_append, hnone]

theorem any_of_find?_some {α : Type} {p : α → Bool} {l : List α} {a : α}
    (h : l.find? p = some a) : l.any p = true := by
  have hm := List.mem_of_find?_eq_some h
  have hp := List.find?_some h
  exact List.any_eq_true.mpr ⟨a, hm, hp⟩

/-- Pointwise status-rank monotonicity between two message lists: the
second list is at least as long and every common index has not gone back
in the `sent → delivered → read` progression. -/
def messagesMono (l l' : List MessageDoc) : Prop :=
  l.length ≤ l'.length ∧
    ∀ (i : Nat) (m m' : MessageDoc), l[i]? = some m → l'[i]? = some m' →
      statusRank m.status ≤ statusRank m'.status

theorem messagesMono_refl (l : List MessageDoc) : messagesMono l l := by
  refine ⟨le_refl _, fun i m m' h h' => ?_⟩
  rw [h] at h'
  cases h'
  exact le_refl _

theorem messagesMono_trans {a b c : List MessageDoc}
    (h1 : messagesMono a b) (h2 : messagesMono b c) : messagesMono a c := by
  refine ⟨le_trans h1.1 h2.1, fun i m m' hm hm' => ?_⟩
  have hi : i < a.length := (List.getElem?_eq_some.mp hm).1
  have hib : i < b.length := lt_of_lt_of_le hi h1.1
  have hb : b[i]? = some b[i] := List.getElem?_eq_getElem hib
  exact le_trans (h1.2 i m b[i] hm hb) (h2.2 i b[i] m' hb hm')

theorem messagesMono_append (l t : List MessageDoc) : messagesMono l (l ++ t) := by
  refine ⟨by simp, fun i m m' hm hm' => ?_⟩
  have hi : i < l.length := (List.getElem?_eq_some.mp hm).1
  rw [List.getElem?_append_left hi] at hm'
  rw [hm] at hm'
  cases hm'
  exact le_refl _

theorem messagesMono_map {f : MessageDoc → MessageDoc}
    (hf : ∀ m, statusRank m.status ≤ statusRank (f m).status)
    (l : List MessageDoc) : messagesMono l (l.map f) := by
  refine ⟨by simp, fun i m m' hm hm' => ?_⟩
  rw [List.getElem?_map, hm] at hm'
  cases hm'
  exact hf m

theorem handleSendMessageCore_messages_shape (st : ChatState) (uid : UserId)
    (cid content : String) (mt : Option String) (fu fn : Option String)
    (newId : MsgId) (now : Time) :
    ∃ t, (handleSendMessageCore st uid cid content mt fu fn newId now).state.messages
      = st.messages ++ t := by
  unfold handleSendMessageCore
  split
  · exact ⟨[], (List.append_nil _).symm⟩
  · split
    · exact ⟨[], (List.append_nil _).symm⟩
    · split
      · exact ⟨[], (List.append_nil _).symm⟩
      · dsimp only
        split
        · exact ⟨[], (List.append_nil _).symm⟩
        · exact ⟨_, rfl⟩

theorem handleSendMessage_mono (st : ChatState) (uid : UserId)
    (cid content : String) (mt : Option String) (fu fn : Option String)
    (newId : MsgId) (now : Time) :
    messagesMono st.messages
      (handleSendMessage st uid cid content mt fu fn newId now).state.messages := by
  unfold handleSendMessage
  split
  · exact messagesMono_refl _
  · obtain ⟨t, ht⟩ :=
      handleSendMessageCore_messages_shape st uid cid content mt fu fn newId now
    rw [ht]
    exact messagesMono_append _ _

theorem handleJoinConversation_mono (st : ChatState) (uid : UserId)
    (sid : SocketId) (cid : ConvId) (now : Time) :
    messagesMono st.messages
      (handleJoinConversation st uid sid cid now).state.messages := by
  unfold handleJoinConversation
  split
  · exact messagesMono_refl _
  · split
    · exact messagesMono_refl _
    · apply messagesMono_map
      intro m
      by_cases hq : joinDeliveryMatches cid uid m = true
      · rw [if_pos hq, joinDeliveryMatches_status hq]
        simp [statusRank]
      · rw [if_neg hq]

theorem handleMarkAsRead_mono (st : ChatState) (uid : UserId) (cid : ConvId)
    (mid : Option MsgId) (now : Time) :
    messagesMono st.messages
      (handleMarkAsRead st uid cid mid now).state.messages := by
  unfold handleMarkAsRead
  split
  · exact messagesMono_refl _
  · split
    · exact messagesMono_refl _
    · apply messagesMono_map
      intro m
      by_cases hq : markReadMatches cid uid
          (match mid with
           | none => none
           | some mid =>
             match findMsg st.messages mid with
             | some target => some target.createdAt
             | none => none) m = true
      · rw [if_pos hq]
        exact statusRank_le_two _
      · rw [if_neg hq]

theorem applyOp_mono (st : ChatState) (op : ChatOp) :
    messagesMono st.messages (applyOp st op).messages := by
  cases op with
  | sendOp uid cid content mt fu fn newId now =>
    exact handleSendMessage_mono st uid cid content mt fu fn newId now
  | joinOp uid sid cid now => exact handleJoinConversation_mono st uid sid cid now
  | markReadOp uid cid mid now => exact handleMarkAsRead_mono st uid cid mid now

theorem applyOps_mono (ops : List ChatOp) (st : ChatState) :
    messagesMono st.messages (applyOps st ops).messages := by
  induction ops generalizing st with
  | nil => exact messagesMono_refl _
  | cons op rest ih =>
    exact messagesMono_trans (applyOp_mono st op) (ih (applyOp st op))

/-! ### Concrete fixtures for witnesses and counterexamples -/

/-- A two-party conversation between `u1` and `u2`, with a 24-hex-char id
so the zod ObjectId format check passes. -/
def wConv : ConversationDoc :=
  { id := "aaaaaaaaaaaaaaaaaaaaaaaa"
    participants := ["u1", "u2"]
    jobId := none
    proposalId := none
    lastMessage := none
    unreadCount := [("u1", 0), ("u2", 0)] }

/-- An unread `sent` message from `u2` in `wConv`, created at time `t`. -/
def wSentMsg (mid : MsgId) (t : Time) : MessageDoc :=
  { id := mid
    conversationId := "aaaaaaaaaaaaaaaaaaaaaaaa"
    senderId := "u2"
    content := "hello"
    messageType := "text"
    fileUrl := none
    fileName := none
    isRead := false
    readAt := none
    status := .sent
    deliveredAt := none
    createdAt := t }

/-- Base world: `wConv` stored, `u2` online with socket `s2`, the
conversation room populated by the sender's socket `s1` only, both caches
populated. -/
def wState : ChatState :=
  { conversations := [wConv]
    messages := []
    onlineUsers := [("u2", "s2")]
    rooms := [(conversationRoom "aaaaaaaaaaaaaaaaaaaaaaaa", ["s1"])]
    cache := { convKeys := ["aaaaaaaaaaaaaaaaaaaaaaaa"], userConvKeys := ["u1", "u2"] } }

/-- The base world `wState` with four unread `sent` messages from `u2` (creation times
1, 2, 3, 4). -/
def wState4 : ChatState :=
  { wState with
    messages := [wSentMsg "m1" 1, wSentMsg "m2" 2, wSentMsg "m3" 3, wSentMsg "m4" 4] }

/-! ### Claim theorems -/

/-- Claim C4: for a send_message with a well-formed payload, the emitted error
is the identical "Conversation not found" both when no conversation with
that id exists and when it exists but the sender is not a participant;
in both cases the state is untouched. -/
theorem send_error_indistinguishable (st : ChatState) (uid : UserId)
    (cid content : String) (mt : Option String) (fu fn : Option String)
    (newId : MsgId) (now : Time)
    (hv : sendMessageSchemaOk cid content mt fn = true)
    (h : findConv st.conversations cid = none ∨
         ∃ c, findConv st.conversations cid = some c
           ∧ c.participants.contains uid = false) :
    handleSendMessage st uid cid content mt fu fn newId now
      = ⟨st, [(.toSender, .errorEv "Conversation not found")]⟩ := by
  unfold handleSendMessage
  rw [if_neg (by simp [hv])]
  unfold handleSendMessageCore
  rcases h with h | ⟨c, hc, hp⟩
  · rw [h]
  · rw [hc]
    dsimp only
    rw [if_pos (by rw [hp]; simp)]

theorem send_error_indistinguishable_witness :
    sendMessageSchemaOk "aaaaaaaaaaaaaaaaaaaaaaaa" "hi" none none = true
    ∧ (∃ c, findConv wState.conversations "aaaaaaaaaaaaaaaaaaaaaaaa" = some c
        ∧ c.participants.contains "intruder" = false)
    ∧ handleSendMessage wState "intruder" "aaaaaaaaaaaaaaaaaaaaaaaa" "hi"
        none none none "m9" 7
      = ⟨wState, [(.toSender, .errorEv "Conversation not found")]⟩ :=
  ⟨by decide, ⟨wConv, by decide, by decide⟩,
    send_error_indistinguishable wState "intruder" "aaaaaaaaaaaaaaaaaaaaaaaa" "hi"
      none none none "m9" 7 (by decide)
      (Or.inr ⟨wConv, by decide, by decide⟩)⟩

/-- Claim C5: conversation creation fails (nothing is persisted) whenever the
participant list does not have exactly two entries, and successful
creation preserves the invariant that every stored conversation has
exactly two participants. -/
theorem conversation_two_participants (store : List ConversationDoc)
    (c : ConversationDoc) :
    (c.participants.length ≠ 2 →
      conversationCreate store c
        = .error (.validation "Conversation must have exactly 2 participants"))
    ∧ (∀ store' created, conversationCreate store c = .ok (store', created) →
        (∀ d ∈ store, d.participants.length = 2) →
        ∀ d ∈ store', d.participants.length = 2) := by
  constructor
  · intro hne
    unfold conversationCreate conversationValidate
    rw [if_pos hne]
  · intro store' created hok hstore d hd
    unfold conversationCreate conversationValidate at hok
    by_cases h2 : c.participants.length ≠ 2
    · rw [if_pos h2] at hok
      dsimp only at hok
      cases hok
    · rw [if_neg h2] at hok
      dsimp only at hok
      push_neg at h2
      split at hok
      · cases hok
      · simp only [Except.ok.injEq, Prod.mk.injEq] at hok
        obtain ⟨hss, -⟩ := hok
        subst hss
        rcases List.mem_append.mp hd with hmem | hmem
        · exact hstore d hmem
        · rw [List.mem_singleton.mp hmem]
          exact h2

theorem conversation_two_participants_witness :
    (["u1"].length ≠ 2 →
      conversationCreate [] { wConv with participants := ["u1"] }
        = .error (.validation "Conversation must have exactly 2 participants"))
    ∧ (∀ store' created,
        conversationCreate [] { wConv with participants := ["u1"] } = .ok (store', created) →
        (∀ d ∈ ([] : List ConversationDoc), d.participants.length = 2) →
        ∀ d ∈ store', d.participants.length = 2) :=
  conversation_two_participants [] { wConv with participants := ["u1"] }

/-- Claim C8: when `acceptJobProposal` finds no conversation for the proposal
but its create hits the unique-index duplicate-key race (another request
inserted one in between), the handler re-reads and returns the existing
conversation with no error. -/
theorem accept_duplicate_conversation_idempotent
    (preStore postStore : List ConversationDoc) (uid fid jid pid : String)
    (newId : ConvId) {c : ConversationDoc}
    (h1 : findConvByProposal preStore pid = none)
    (h2 : findConvByProposal postStore pid = some c) :
    acceptCreateConversation preStore postStore uid fid jid pid newId
      = .ok postStore (some c) := by
  unfold acceptCreateConversation
  rw [h1]
  unfold conversationCreate conversationValidate
  rw [if_neg (by simp)]
  have hany : postStore.any (fun d => d.proposalId = some pid) = true := by
    unfold findConvByProposal at h2
    exact any_of_find?_some h2
  rw [if_pos (by simp [hany])]
  rw [h2]

theorem accept_duplicate_conversation_idempotent_witness :
    findConvByProposal [] "p1" = none
    ∧ findConvByProposal [{ wConv with proposalId := some "p1" }] "p1"
        = some { wConv with proposalId := some "p1" }
    ∧ acceptCreateConversation [] [{ wConv with proposalId := some "p1" }]
        "u1" "u2" "j1" "p1" "cNew"
      = .ok [{ wConv with proposalId := some "p1" }]
          (some { wConv with proposalId := some "p1" }) :=
  ⟨by decide, by decide,
    accept_duplicate_conversation_idempotent [] [{ wConv with proposalId := some "p1" }]
      "u1" "u2" "j1" "p1" "cNew" (by decide) (by decide)⟩

/-- Claim C1 (counterexample): the claim "initial status is delivered iff the
recipient is globally online AND has joined the conversation's broadcast
room" is false on the code: with recipient `u2` online (socket `s2`) but
the conversation room containing only the sender's socket `s1`, the
spec-side check is false (recipient not in the room) yet the created
message starts as `delivered` with `deliveredAt` set, because the code
only tests that the room exists (is non-empty), not that the recipient's
socket is a member. -/
theorem send_initial_status_room_check_counterexample :
    specDeliveredCheck wState "aaaaaaaaaaaaaaaaaaaaaaaa" "u2" = false
    ∧ (handleSendMessageCore wState "u1" "aaaaaaaaaaaaaaaaaaaaaaaa" "hi"
        none none none "m1" 10).state.messages.map
          (fun m => (m.status, m.deliveredAt))
      = [(MessageStatus.delivered, some 10)] := by
  constructor
  · decide
  · decide

/-- Claim C1 (amended): for a send by a participant with an existing other
participant and a payload the model accepts, the created message starts
as `delivered` (with `deliveredAt` set) iff the recipient is globally
online AND the conversation's broadcast room is non-empty on the sending
process (the code checks room existence, not recipient membership);
otherwise it starts as `sent` with no `deliveredAt`. -/
theorem send_initial_status_amended (st : ChatState) (uid : UserId)
    (cid content : String) (mt : Option String) (fu fn : Option String)
    (newId : MsgId) (now : Time) {conv : ConversationDoc} {o : UserId}
    (hc : findConv st.conversations cid = some conv)
    (hp : conv.participants.contains uid = true)
    (ho : conv.participants.find? (fun p => p ≠ uid) = some o)
    (hm : mongooseMessageValidate content (mt.getD "text") = true) :
    ∃ m : MessageDoc,
      (handleSendMessageCore st uid cid content mt fu fn newId now).state.messages
        = st.messages ++ [m]
      ∧ (m.status = .delivered ∧ m.deliveredAt = some now
          ↔ (getOnlineUserSocketId st o).isSome = true
            ∧ (roomsGet st (conversationRoom cid)).isSome = true)
      ∧ (¬ ((getOnlineUserSocketId st o).isSome = true
            ∧ (roomsGet st (conversationRoom cid)).isSome = true)
          → m.status = .sent ∧ m.deliveredAt = none) := by
  unfold handleSendMessageCore
  rw [hc]
  dsimp only
  rw [if_neg (by rw [hp]; simp), ho, findConvWithParticipant_eq hc hp]
  dsimp only
  rw [if_neg (by simp [hm])]
  dsimp only
  refine ⟨_, rfl, ?_, ?_⟩
  · cases h1 : (getOnlineUserSocketId st o).isSome
      <;> cases h2 : (roomsGet st (conversationRoom cid)).isSome
      <;> simp [h1, h2]
  · cases h1 : (getOnlineUserSocketId st o).isSome
      <;> cases h2 : (roomsGet st (conversationRoom cid)).isSome
      <;> simp [h1, h2]

theorem send_initial_status_amended_witness :
    findConv wState.conversations "aaaaaaaaaaaaaaaaaaaaaaaa" = some wConv
    ∧ wConv.participants.contains "u1" = true
    ∧ wConv.participants.find? (fun p => p ≠ "u1") = some "u2"
    ∧ mongooseMessageValidate "hi" ((none : Option String).getD "text") = true
    ∧ ∃ m : MessageDoc,
        (handleSendMessageCore wState "u1" "aaaaaaaaaaaaaaaaaaaaaaaa" "hi"
          none none none "m1" 10).state.messages
          = wState.messages ++ [m]
        ∧ (m.status = .delivered ∧ m.deliveredAt = some 10
            ↔ (getOnlineUserSocketId wState "u2").isSome = true
              ∧ (roomsGet wState (conversationRoom "aaaaaaaaaaaaaaaaaaaaaaaa")).isSome = true)
        ∧ (¬ ((getOnlineUserSocketId wState "u2").isSome = true
              ∧ (roomsGet wState (conversationRoom "aaaaaaaaaaaaaaaaaaaaaaaa")).isSome = true)
            → m.status = .sent ∧ m.deliveredAt = none) :=
  ⟨by decide, by decide, by decide, by decide,
    @send_initial_status_amended wState "u1" "aaaaaaaaaaaaaaaaaaaaaaaa" "hi"
      none none none "m1" 10 wConv "u2" (by decide) (by decide) (by decide) (by decide)⟩

/-- Claim C7 (counterexample): the claim that a successful joinConversation
deletes the per-participant conversation-list cache entries is false:
with both participants' list-cache entries populated, after `u1`
successfully joins, both entries are still present — the handler only
deletes the conversation-id entry. -/
theorem join_cache_invalidation_counterexample :
    findConv wState.conversations "aaaaaaaaaaaaaaaaaaaaaaaa" = some wConv
    ∧ wConv.participants.contains "u1" = true
    ∧ (handleJoinConversation wState "u1" "s1" "aaaaaaaaaaaaaaaaaaaaaaaa" 5).state.cache.userConvKeys
        = ["u1", "u2"] := by
  refine ⟨by decide, by decide, by decide⟩

/-- Claim C7 (amended): after a successful joinConversation (conversation found
and the caller a participant), the cache entry for the conversation id is
deleted, but the per-participant conversation-list cache entries are left
untouched — join performs no `invalidateUserConversationsCache` call. -/
theorem join_cache_invalidation_amended (st : ChatState) (uid : UserId)
    (sid : SocketId) (cid : ConvId) (now : Time) {conv : ConversationDoc}
    (hc : findConv st.conversations cid = some conv)
    (hp : conv.participants.contains uid = true) :
    (handleJoinConversation st uid sid cid now).state.cache.convKeys
        = st.cache.convKeys.filter (fun k => k ≠ cid)
    ∧ (handleJoinConversation st uid sid cid now).state.cache.userConvKeys
        = st.cache.userConvKeys := by
  unfold handleJoinConversation
  rw [hc]
  dsimp only
  rw [if_neg (by rw [hp]; simp)]
  exact ⟨rfl, rfl⟩

theorem join_cache_invalidation_amended_witness :
    findConv wState.conversations "aaaaaaaaaaaaaaaaaaaaaaaa" = some wConv
    ∧ wConv.participants.contains "u1" = true
    ∧ (handleJoinConversation wState "u1" "s1" "aaaaaaaaaaaaaaaaaaaaaaaa" 5).state.cache.convKeys
        = wState.cache.convKeys.filter (fun k => k ≠ "aaaaaaaaaaaaaaaaaaaaaaaa")
    ∧ (handleJoinConversation wState "u1" "s1" "aaaaaaaaaaaaaaaaaaaaaaaa" 5).state.cache.userConvKeys
        = wState.cache.userConvKeys :=
  ⟨by decide, by decide,
    (@join_cache_invalidation_amended wState "u1" "s1" "aaaaaaaaaaaaaaaaaaaaaaaa" 5
      wConv (by decide) (by decide)).1,
    (@join_cache_invalidation_amended wState "u1" "s1" "aaaaaaaaaaaaaaaaaaaaaaaa" 5
      wConv (by decide) (by decide)).2⟩

/-- Claim C9: for a markAsRead whose messageId resolves to an existing message,
exactly the unread messages of the conversation not authored by the
caller and created at or before the cursor message's creation time are
flipped to `read` with `isRead = true` and `readAt` set; all other
messages (in particular unread ones created after the cursor) are
unchanged. -/
theorem markAsRead_cursor (st : ChatState) (uid : UserId) (cid : ConvId)
    (mid : MsgId) (now : Time) {conv : ConversationDoc} {target : MessageDoc}
    (hc : findConv st.conversations cid = some conv)
    (hp : conv.participants.contains uid = true)
    (ht : findMsg st.messages mid = some target) :
    (handleMarkAsRead st uid cid (some mid) now).state.messages
      = st.messages.map (fun m =>
          if m.conversationId = cid ∧ m.senderId ≠ uid ∧ m.isRead = false
              ∧ m.createdAt ≤ target.createdAt
          then { m with isRead := true, readAt := some now, status := .read }
          else m) := by
  unfold handleMarkAsRead
  rw [hc]
  dsimp only
  rw [if_neg (by rw [hp]; simp)]
  dsimp only
  rw [ht]
  dsimp only
  congr 1
  funext m
  apply if_congr _ rfl rfl
  simp [markReadMatches, and_assoc]

theorem markAsRead_cursor_witness :
    findConv wState4.conversations "aaaaaaaaaaaaaaaaaaaaaaaa" = some wConv
    ∧ wConv.participants.contains "u1" = true
    ∧ findMsg wState4.messages "m2" = some (wSentMsg "m2" 2)
    ∧ (handleMarkAsRead wState4 "u1" "aaaaaaaaaaaaaaaaaaaaaaaa" (some "m2") 20).state.messages
        = wState4.messages.map (fun m =>
            if m.conversationId = "aaaaaaaaaaaaaaaaaaaaaaaa" ∧ m.senderId ≠ "u1"
                ∧ m.isRead = false ∧ m.createdAt ≤ (wSentMsg "m2" 2).createdAt
            then { m with isRead := true, readAt := some 20, status := .read }
            else m) :=
  ⟨by decide, by decide, by decide,
    @markAsRead_cursor wState4 "u1" "aaaaaaaaaaaaaaaaaaaaaaaa" "m2" 20
      wConv (wSentMsg "m2" 2) (by decide) (by decide) (by decide)⟩

/-- Claim C10: a markAsRead whose well-formed messageId matches no message
behaves exactly like a cursorless markAsRead — no error is emitted, the
cursor restriction is silently dropped (every unread message from the
other participant is marked read), and the caller's unread counter is
reset to 0. -/
theorem markAsRead_missing_cursor (st : ChatState) (uid : UserId)
    (cid : ConvId) (mid : MsgId) (now : Time) {conv : ConversationDoc}
    (hc : findConv st.conversations cid = some conv)
    (hp : conv.participants.contains uid = true)
    (hm : findMsg st.messages mid = none) :
    handleMarkAsRead st uid cid (some mid) now = handleMarkAsRead st uid cid none now
    ∧ (∀ e ∈ (handleMarkAsRead st uid cid (some mid) now).events,
        ∀ s, e.2 ≠ SocketEvent.errorEv s)
    ∧ ∃ conv',
        findConv (handleMarkAsRead st uid cid (some mid) now).state.conversations cid
          = some conv'
        ∧ unreadGet conv'.unreadCount uid = 0 := by
  have hev : (handleMarkAsRead st uid cid (some mid) now).events = []
      ∨ ∃ o ids, (handleMarkAsRead st uid cid (some mid) now).events
          = [(EmitTarget.toUser o, SocketEvent.messagesRead cid uid ids now)] := by
    unfold handleMarkAsRead
    rw [hc]
    dsimp only
    rw [if_neg (by rw [hp]; simp)]
    dsimp only
    rw [hm]
    try dsimp only
    rcases hfo : conv.participants.find? (fun p => p ≠ uid) with _ | o
    · exact Or.inl rfl
    · by_cases hgt :
        (st.messages.filter (markReadMatches cid uid none)).length > 0
      · exact Or.inr ⟨o, _, if_pos hgt⟩
      · exact Or.inl (if_neg hgt)
  have hconv : (handleMarkAsRead st uid cid (some mid) now).state.conversations
      = saveConv st.conversations
          { conv with unreadCount := unreadSet conv.unreadCount uid 0 } := by
    unfold handleMarkAsRead
    rw [hc]
    dsimp only
    rw [if_neg (by rw [hp]; simp)]
  refine ⟨?_, ?_, ?_⟩
  · unfold handleMarkAsRead
    simp only [hm]
  · intro e he s
    rcases hev with h | ⟨o, ids, h⟩
    · rw [h] at he
      simp at he
    · rw [h] at he
      rw [List.mem_singleton.mp he]
      simp
  · refine ⟨{ conv with unreadCount := unreadSet conv.unreadCount uid 0 }, ?_, ?_⟩
    · rw [hconv]
      exact findConv_saveConv hc rfl
    · exact unreadGet_unreadSet_self _ _ _

theorem markAsRead_missing_cursor_witness :
    findConv wState4.conversations "aaaaaaaaaaaaaaaaaaaaaaaa" = some wConv
    ∧ wConv.participants.contains "u1" = true
    ∧ findMsg wState4.messages "zzz" = none
    ∧ handleMarkAsRead wState4 "u1" "aaaaaaaaaaaaaaaaaaaaaaaa" (some "zzz") 20
        = handleMarkAsRead wState4 "u1" "aaaaaaaaaaaaaaaaaaaaaaaa" none 20
    ∧ (∀ e ∈ (handleMarkAsRead wState4 "u1" "aaaaaaaaaaaaaaaaaaaaaaaa" (some "zzz") 20).events,
        ∀ s, e.2 ≠ SocketEvent.errorEv s)
    ∧ ∃ conv',
        findConv (handleMarkAsRead wState4 "u1" "aaaaaaaaaaaaaaaaaaaaaaaa"
            (some "zzz") 20).state.conversations "aaaaaaaaaaaaaaaaaaaaaaaa"
          = some conv'
        ∧ unreadGet conv'.unreadCount "u1" = 0 := by
  have h := @markAsRead_missing_cursor wState4 "u1" "aaaaaaaaaaaaaaaaaaaaaaaa"
    "zzz" 20 wConv (by decide) (by decide) (by decide)
  exact ⟨by decide, by decide, by decide, h.1, h.2.1, h.2.2⟩

/-- Claim C2: along any sequence of send / joinConversation bulk-delivery /
markAsRead operations, a message's status never regresses in the
`sent → delivered → read` progression: its rank is monotone, once
`delivered` it is never observed as `sent` again, and once `read` it
stays `read`. -/
theorem message_status_monotonic (st : ChatState) (ops : List ChatOp) (i : Nat)
    (m m' : MessageDoc) (hm : st.messages[i]? = some m)
    (hm' : (applyOps st ops).messages[i]? = some m') :
    statusRank m.status ≤ statusRank m'.status
    ∧ (m.status = .delivered → m'.status ≠ .sent)
    ∧ (m.status = .read → m'.status = .read) := by
  have hrank := (applyOps_mono ops st).2 i m m' hm hm'
  refine ⟨hrank, ?_, ?_⟩
  · intro hd hs
    rw [hd, hs] at hrank
    simp [statusRank] at hrank
  · intro hr
    rw [hr] at hrank
    cases hstat : m'.status <;> rw [hstat] at hrank <;> simp [statusRank] at hrank

theorem message_status_monotonic_witness :
    wState4.messages[0]? = some (wSentMsg "m1" 1)
    ∧ (applyOps wState4
        [ChatOp.markReadOp "u1" "aaaaaaaaaaaaaaaaaaaaaaaa" none 20]).messages[0]?
        = some { wSentMsg "m1" 1 with isRead := true, readAt := some 20, status := .read }
    ∧ (statusRank (wSentMsg "m1" 1).status
        ≤ statusRank ({ wSentMsg "m1" 1 with
            isRead := true, readAt := some 20, status := .read } : MessageDoc).status
      ∧ ((wSentMsg "m1" 1).status = .delivered →
          ({ wSentMsg "m1" 1 with
              isRead := true, readAt := some 20, status := .read } : MessageDoc).status ≠ .sent)
      ∧ ((wSentMsg "m1" 1).status = .read →
          ({ wSentMsg "m1" 1 with
              isRead := true, readAt := some 20, status := .read } : MessageDoc).status = .read)) :=
  ⟨by decide, by decide,
    message_status_monotonic wState4
      [ChatOp.markReadOp "u1" "aaaaaaaaaaaaaaaaaaaaaaaa" none 20] 0
      (wSentMsg "m1" 1)
      { wSentMsg "m1" 1 with isRead := true, readAt := some 20, status := .read }
      (by decide) (by decide)⟩

/-- The message produced by the `getChats` bulk read-marking from a fresh
`sent` message: `isRead` and `readAt` are set but `status` stays `sent`. -/
def wMsgGetChatsMarked : MessageDoc :=
  { wSentMsg "m1" 1 with isRead := true, readAt := some 5 }

/-- Claim C3 (code bug): the HTTP `getChats` bulk read-marking sets `isRead`
and `readAt` but not `status`, so starting from a consistent unread
`sent` message it produces a message with `isRead = true`, `readAt` set
and `status = sent` — violating the invariant that `isRead`/`readAt` are
set iff `status = read`. -/
theorem getChats_breaks_status_consistency :
    statusConsistent (wSentMsg "m1" 1)
    ∧ getChatsMarkMessages [wSentMsg "m1" 1] "u1" "aaaaaaaaaaaaaaaaaaaaaaaa" 5
        = [wMsgGetChatsMarked]
    ∧ wMsgGetChatsMarked.status = .sent
    ∧ ¬ statusConsistent wMsgGetChatsMarked := by
  refine ⟨by decide, by decide, by decide, by decide⟩

/-- Claim C6 (code bug): the zod send schema accepts messageType "audio" (and
"video"), but the mongoose message enum only allows text/file/image, so a
send_message with messageType "audio" from a participant passes
validation and then fails at persistence: no message is stored and the
handler emits "failed to send message". -/
theorem send_audio_type_rejected :
    zodMessageTypes.contains "audio" = true
    ∧ sendMessageSchemaOk "aaaaaaaaaaaaaaaaaaaaaaaa" "hi" (some "audio") none = true
    ∧ modelMessageTypes.contains "audio" = false
    ∧ handleSendMessage wState "u1" "aaaaaaaaaaaaaaaaaaaaaaaa" "hi" (some "audio")
        none none "m1" 10
      = ⟨wState, [(.toSender, .errorEv "failed to send message")]⟩ := by
  refine ⟨by decide, by decide, by decide, by decide⟩

end Matchlance
